import Mathlib

set_option maxRecDepth 10000

/-!
Shallow embedding of the uLogger log-record buffer
(`src/sources/uLogger/inc/uLogger.hpp`).

The C++ `LogBuffer` accumulates space-separated textual fields in a
fixed 4096-byte character array and emits the record to a console sink
and/or a file sink gated by independent severity thresholds.  Here the
character array content is modelled as a `List Char` together with the
explicit `size` counter kept by the code, `snprintf`-plus-`safeAppend`
is modelled by `LogBuffer.safeAppend`, machine times are microseconds
since the epoch as `Nat`, and the file stream is modelled by a pending
(stream buffer) and a flushed (on disk) list of lines.  `localtime` is
modelled with a zero timezone offset (UTC); nothing proved below
depends on the offset.
-/

/-- Byte/character sequences (contents of the C `char` buffer and of
the rendered strings). -/
abbrev Bytes := List Char

/-- Log severity levels, in the order of the C++ `enum class LogLevel`. -/
inductive LogLevel where
  | EC_VERBOSE
  | EC_DEBUG
  | EC_INFO
  | EC_WARNING
  | EC_ERROR
  | EC_FATAL
  | EC_FIXED
deriving DecidableEq

/-- Numeric value of a severity, as the underlying C++ enum value used by
`<`/`>=` threshold comparisons. -/
def LogLevel.toNat : LogLevel → Nat
  | .EC_VERBOSE => 0
  | .EC_DEBUG => 1
  | .EC_INFO => 2
  | .EC_WARNING => 3
  | .EC_ERROR => 4
  | .EC_FATAL => 5
  | .EC_FIXED => 6

/-- The fixed-width display label of a severity (C++ `toString(LogLevel)`). -/
def LogLevel.toString : LogLevel → Bytes
  | .EC_VERBOSE => "VERBOSE".data
  | .EC_DEBUG => "  DEBUG".data
  | .EC_INFO => "   INFO".data
  | .EC_WARNING => "WARNING".data
  | .EC_ERROR => "  ERROR".data
  | .EC_FATAL => "  FATAL".data
  | .EC_FIXED => "  FIXED".data

/-- The ANSI color escape of a severity (C++ `getColor(LogLevel)`). -/
def getColor : LogLevel → Bytes
  | .EC_VERBOSE => "\x1b[90m".data
  | .EC_DEBUG => "\x1b[36m".data
  | .EC_INFO => "\x1b[32m".data
  | .EC_WARNING => "\x1b[33m".data
  | .EC_ERROR => "\x1b[31m".data
  | .EC_FATAL => "\x1b[91m".data
  | .EC_FIXED => "\x1b[97m".data

/-- File-sink flush cadence (C++ `enum class FlushPolicy`). -/
inductive FlushPolicy where
  | ALWAYS
  | ERROR_AND_ABOVE
  | NEVER
deriving DecidableEq

/-- `LogBuffer::BUFFER_SIZE`. -/
def BUFFER_SIZE : Nat := 4096

/-- Fuel-driven most-significant-first digit rendering: the digits of `n`
in base 10 prepended to `acc`, matching what `snprintf` with `%llu`
produces.  The fuel argument only ensures structural termination. -/
def decCharsCore : Nat → Nat → Bytes → Bytes
  | 0, _, acc => acc
  | fuel + 1, n, acc =>
    if n < 10 then Nat.digitChar n :: acc
    else decCharsCore fuel (n / 10) (Nat.digitChar (n % 10) :: acc)

/-- Decimal rendering of a natural number (`%llu` / `%zu`). -/
def decChars (n : Nat) : Bytes := decCharsCore (n + 1) n []

/-- An uppercase hexadecimal digit. -/
def hexDigitUpper (n : Nat) : Char :=
  if n < 10 then Nat.digitChar n else Char.ofNat (55 + n)

/-- Fuel-driven uppercase hexadecimal digit rendering (for `%llX`). -/
def hexCharsCore : Nat → Nat → Bytes → Bytes
  | 0, _, acc => acc
  | fuel + 1, n, acc =>
    if n < 16 then hexDigitUpper n :: acc
    else hexCharsCore fuel (n / 16) (hexDigitUpper (n % 16) :: acc)

/-- Uppercase hexadecimal rendering of a natural number (`%llX`). -/
def hexChars (n : Nat) : Bytes := hexCharsCore (n + 1) n []

/-- Fuel-driven lowercase hexadecimal digit rendering (for `%p`). -/
def hexLowerCore : Nat → Nat → Bytes → Bytes
  | 0, _, acc => acc
  | fuel + 1, n, acc =>
    if n < 16 then Nat.digitChar n :: acc
    else hexLowerCore fuel (n / 16) (Nat.digitChar (n % 16) :: acc)

/-- Lowercase hexadecimal rendering of a natural number. -/
def hexLower (n : Nat) : Bytes := hexLowerCore (n + 1) n []

/-- Decimal rendering of an integer (`%lld`). -/
def intChars (i : Int) : Bytes :=
  if i < 0 then '-' :: decChars i.natAbs else decChars i.natAbs

/-- The value of the C++ `long long` obtained by converting an integral
value `i` (two's-complement wrap into `[-2^63, 2^63)`); the conversion is
the identity on every value of every C++ integral source type that is
handed to the signed `%lld` branch. -/
def wrap64 (i : Int) : Int := (i + 2 ^ 63) % 2 ^ 64 - 2 ^ 63

/-- The state of the C++ `LogBuffer`, with the file stream modelled as a
pending (in the stream buffer) and a flushed (on disk) list of lines,
and time points as microseconds since the epoch. -/
structure LogBuffer where
  buffer : Bytes := []
  size : Nat := 0
  currentLevel : LogLevel := .EC_INFO
  consoleThreshold : LogLevel := .EC_VERBOSE
  fileThreshold : LogLevel := .EC_VERBOSE
  fileLoggingEnabled : Bool := false
  fileOpen : Bool := false
  fileName : Bytes := []
  filePending : List Bytes := []
  fileFlushed : List Bytes := []
  useColors : Bool := true
  includeDate : Bool := true
  truncated : Bool := false
  flushPolicy : FlushPolicy := .ERROR_AND_ABOVE
  cachedTimestamp : Bytes := []
  lastTimestampUpdate : Nat := 0
deriving DecidableEq

/-- `LogBuffer::reset`. -/
def LogBuffer.reset (lb : LogBuffer) : LogBuffer :=
  { lb with size := 0, buffer := [], currentLevel := .EC_INFO, truncated := false }

/-- `snprintf(buffer + size, BUFFER_SIZE - size, ...)` followed by
`LogBuffer::safeAppend(written)`: `snprintf` stores at most
`BUFFER_SIZE - size - 1` characters of the rendered text and returns the
full rendered length `written`; `safeAppend` then adds
`min written (BUFFER_SIZE - size - 1)` to `size` and sets `truncated`
when `written` exceeds the available space.  (`written > 0` guards the
whole accounting, as in the code.) -/
def LogBuffer.safeAppend (lb : LogBuffer) (rendered : Bytes) : LogBuffer :=
  if 0 < rendered.length then
    let available := BUFFER_SIZE - lb.size - 1
    let toWrite := min rendered.length available
    { lb with
      buffer := lb.buffer ++ rendered.take toWrite,
      size := lb.size + toWrite,
      truncated := lb.truncated || decide (available < rendered.length) }
  else lb

/-- `LogBuffer::append(char)`: renders `"%c "`. -/
def LogBuffer.appendChar (lb : LogBuffer) (c : Char) : LogBuffer :=
  if BUFFER_SIZE - 2 ≤ lb.size then { lb with truncated := true }
  else lb.safeAppend [c, ' ']

/-- `LogBuffer::append(const char*)`: a null pointer is `none`; renders
`"%s "`. -/
def LogBuffer.appendCStr (lb : LogBuffer) (text : Option Bytes) : LogBuffer :=
  if text = none ∨ BUFFER_SIZE - 1 ≤ lb.size then
    if BUFFER_SIZE - 1 ≤ lb.size then { lb with truncated := true } else lb
  else lb.safeAppend (text.getD [] ++ [' '])

/-- `LogBuffer::append(const std::string&)`. -/
def LogBuffer.appendStr (lb : LogBuffer) (text : Bytes) : LogBuffer :=
  if text = [] then lb else lb.appendCStr (some text)

/-- `LogBuffer::append(const std::string_view&)`: renders `"%.*s "` only
when the view fits strictly below the remaining room, otherwise only
marks truncation. -/
def LogBuffer.appendSV (lb : LogBuffer) (text : Bytes) : LogBuffer :=
  if text = [] then lb
  else if text.length < BUFFER_SIZE - lb.size - 1 then lb.safeAppend (text ++ [' '])
  else { lb with truncated := true }

/-- `LogBuffer::append(bool)`: renders `"%s "` of `"true"`/`"false"`. -/
def LogBuffer.appendBool (lb : LogBuffer) (value : Bool) : LogBuffer :=
  if BUFFER_SIZE - 10 ≤ lb.size then { lb with truncated := true }
  else lb.safeAppend ((if value then "true" else "false").data ++ [' '])

/-- `LogBuffer::append<T>` for signed integral `T`: the value is cast to
`long long` and rendered with `"%lld "`. -/
def LogBuffer.appendInt (lb : LogBuffer) (value : Int) : LogBuffer :=
  if BUFFER_SIZE - 25 ≤ lb.size then { lb with truncated := true }
  else lb.safeAppend (intChars (wrap64 value) ++ [' '])

/-- `LogBuffer::append<T>` for unsigned integral `T` (including `size_t`):
the value, reduced modulo `2^64` by the cast chain, rendered with
`"%llu "`/`"%zu "`. -/
def LogBuffer.appendUnsigned (lb : LogBuffer) (value : Nat) : LogBuffer :=
  if BUFFER_SIZE - 25 ≤ lb.size then { lb with truncated := true }
  else lb.safeAppend (decChars (value % 2 ^ 64) ++ [' '])

/-- `LogBuffer::appendHex<T>`: renders `"0x%llX "`. -/
def LogBuffer.appendHex (lb : LogBuffer) (value : Nat) : LogBuffer :=
  if BUFFER_SIZE - 25 ≤ lb.size then { lb with truncated := true }
  else lb.safeAppend ('0' :: 'x' :: hexChars (value % 2 ^ 64) ++ [' '])

/-- `LogBuffer::append<T>` for floating-point `T`: the code renders the
value with `"%.8f "`; the rendered text (everything before the trailing
space) is passed explicitly, since its shape is the only thing the
buffer logic depends on. -/
def LogBuffer.appendFloat (lb : LogBuffer) (rendered : Bytes) : LogBuffer :=
  if BUFFER_SIZE - 30 ≤ lb.size then { lb with truncated := true }
  else lb.safeAppend (rendered ++ [' '])

/-- The `"%.8f"` rendering of a `double` that holds the exact
non-negative integer `n`: all integer digits, a point, eight zeros. -/
def renderFixed8 (n : Nat) : Bytes := decChars n ++ '.' :: List.replicate 8 '0'

/-- The glibc `"%p "` rendering of an address (null prints `(nil)`). -/
def ptrRender (a : Nat) : Bytes :=
  if a % 2 ^ 64 = 0 then "(nil)".data else '0' :: 'x' :: hexLower (a % 2 ^ 64)

/-- `LogBuffer::append<T>` for pointer `T`: renders `"%p "`. -/
def LogBuffer.appendPtr (lb : LogBuffer) (addr : Nat) : LogBuffer :=
  if BUFFER_SIZE - 20 ≤ lb.size then { lb with truncated := true }
  else lb.safeAppend (ptrRender addr ++ [' '])

/-- Zero-padded two-digit rendering (`std::setw(2)`-style fields of
`put_time`). -/
def pad2 (n : Nat) : Bytes := List.replicate (2 - (decChars n).length) '0' ++ decChars n

/-- Zero-padded six-digit rendering (`std::setw(6)` with fill `'0'`). -/
def pad6 (n : Nat) : Bytes := List.replicate (6 - (decChars n).length) '0' ++ decChars n

/-- Civil date from a count of days since 1970-01-01 (the conversion
performed by `localtime`, modelled at offset zero). -/
def civilFromDays (z : Nat) : Nat × Nat × Nat :=
  let z' := z + 719468
  let era := z' / 146097
  let doe := z' % 146097
  let yoe := (doe - doe / 1460 + doe / 36524 - doe / 146096) / 365
  let y := yoe + era * 400
  let doy := doe - (365 * yoe + yoe / 4 - yoe / 100)
  let mp := (5 * doy + 2) / 153
  let d := doy - (153 * mp + 2) / 5 + 1
  let m := if mp < 10 then mp + 3 else mp - 9
  if m ≤ 2 then (y + 1, m, d) else (y, m, d)

/-- `put_time(&tm, "%H:%M:%S")` for an epoch-second count. -/
def renderTimeOfDay (secs : Nat) : Bytes :=
  pad2 (secs / 3600 % 24) ++ ':' :: pad2 (secs / 60 % 60) ++ ':' :: pad2 (secs % 60)

/-- `put_time(&tm, "%Y-%m-%d")` for an epoch-second count. -/
def renderDate (secs : Nat) : Bytes :=
  let c := civilFromDays (secs / 86400)
  decChars c.1 ++ '-' :: pad2 c.2.1 ++ '-' :: pad2 c.2.2

/-- The date-and-or-time part of a timestamp: `"%Y-%m-%d %H:%M:%S"` when
the date is included, `"%H:%M:%S"` otherwise. -/
def renderBase (includeDate : Bool) (tMicros : Nat) : Bytes :=
  let secs := tMicros / 1000000
  if includeDate then renderDate secs ++ ' ' :: renderTimeOfDay secs
  else renderTimeOfDay secs

/-- The full freshly-computed timestamp string of `getTimestamp`:
base part, `'.'`, six-digit microseconds, `" | "`. -/
def renderTimestamp (includeDate : Bool) (tMicros : Nat) : Bytes :=
  renderBase includeDate tMicros ++ '.' :: pad6 (tMicros % 1000000) ++ " | ".data

/-- `LogBuffer::getTimestamp` at current time `now` (microseconds since
the epoch): returns the cached string when the cache is non-empty and
less than one (truncated) millisecond old, otherwise recomputes and
updates the cache. -/
def LogBuffer.getTimestamp (lb : LogBuffer) (now : Nat) : Bytes × LogBuffer :=
  if lb.cachedTimestamp ≠ [] ∧ (now - lb.lastTimestampUpdate) / 1000 < 1 then
    (lb.cachedTimestamp, lb)
  else
    let result := renderTimestamp lb.includeDate now
    (result, { lb with cachedTimestamp := result, lastTimestampUpdate := now })

/-- `LogBuffer::shouldFlush`. -/
def LogBuffer.shouldFlush (lb : LogBuffer) : Bool :=
  match lb.flushPolicy with
  | .ALWAYS => true
  | .ERROR_AND_ABOVE => LogLevel.toNat .EC_ERROR ≤ lb.currentLevel.toNat
  | .NEVER => false

/-- The outcome of one `printUnsafe` call: the bytes written to standard
output (if any), the line handed to the file stream (if any), and the
successor state. -/
structure PrintResult where
  consoleOut : Option Bytes
  fileOut : Option Bytes
  state : LogBuffer
deriving DecidableEq

/-- `LogBuffer::printUnsafe` at current time `now`: early-exit reset when
no sink is admissible, otherwise compose
`timestamp ++ level ++ " | " ++ buffer [++ " [TRUNCATED]"] ++ "\n"`,
write it to the admissible sinks (colored on the console when
`useColors`), flush the file stream per policy, and reset. -/
def LogBuffer.printUnsafe (lb : LogBuffer) (now : Nat) : PrintResult :=
  if lb.currentLevel.toNat < lb.consoleThreshold.toNat ∧
      (¬ lb.fileLoggingEnabled = true ∨ lb.currentLevel.toNat < lb.fileThreshold.toNat) then
    ⟨none, none, lb.reset⟩
  else
    let ts := lb.getTimestamp now
    let lb1 := ts.2
    let fullMessage :=
      ts.1 ++ lb.currentLevel.toString ++ " | ".data ++ lb.buffer ++
        (if lb.truncated then " [TRUNCATED]".data else []) ++ ['\n']
    let consoleOut :=
      if lb.consoleThreshold.toNat ≤ lb.currentLevel.toNat then
        some (if lb.useColors then getColor lb.currentLevel ++ fullMessage ++ "\x1b[0m".data
              else fullMessage)
      else none
    let fileHit :=
      lb.fileLoggingEnabled = true ∧ lb.fileThreshold.toNat ≤ lb.currentLevel.toNat ∧
        lb.fileOpen = true
    let lb2 :=
      if fileHit then
        let lbp := { lb1 with filePending := lb1.filePending ++ [fullMessage] }
        if lb.shouldFlush then
          { lbp with fileFlushed := lbp.fileFlushed ++ lbp.filePending, filePending := [] }
        else lbp
      else lb1
    ⟨consoleOut, if fileHit then some fullMessage else none, lb2.reset⟩

/-- `LogBuffer::flush`: flush the file stream if a file is open. -/
def LogBuffer.flush (lb : LogBuffer) : LogBuffer :=
  if lb.fileOpen then
    { lb with fileFlushed := lb.fileFlushed ++ lb.filePending, filePending := [] }
  else lb

/-- `put_time(&tm, "%Y%m%d_%H%M%S")` for the auto-generated filename. -/
def renderFileStamp (secs : Nat) : Bytes :=
  let c := civilFromDays (secs / 86400)
  decChars c.1 ++ pad2 c.2.1 ++ pad2 c.2.2 ++ '_' ::
    (pad2 (secs / 3600 % 24) ++ pad2 (secs / 60 % 60) ++ pad2 (secs % 60))

/-- `LogBuffer::enableFileLogging(filename)` at current time `now`:
a no-op when already enabled, otherwise opens the supplied filename (or
an auto-generated `log_<stamp>.txt` when empty) in append mode;
`openOk` stands for whether the operating system open succeeded, and
`fileLoggingEnabled` becomes exactly the open state of the handle. -/
def LogBuffer.enableFileLogging (lb : LogBuffer) (filename : Bytes) (now : Nat)
    (openOk : Bool) : LogBuffer :=
  if lb.fileLoggingEnabled then lb
  else
    let logFilename :=
      if filename = [] then "log_".data ++ renderFileStamp (now / 1000000) ++ ".txt".data
      else filename
    { lb with fileName := logFilename, fileOpen := openOk, fileLoggingEnabled := openOk }

/-- `LogBuffer::disableFileLogging`: flush and close the handle if open,
then clear the enabled flag. -/
def LogBuffer.disableFileLogging (lb : LogBuffer) : LogBuffer :=
  let lb1 :=
    if lb.fileOpen then
      { lb with
          fileFlushed := lb.fileFlushed ++ lb.filePending
          filePending := []
          fileOpen := false }
    else lb
  { lb1 with fileLoggingEnabled := false }

/-- `LogBuffer::setLevel`. -/
def LogBuffer.setLevel (lb : LogBuffer) (level : LogLevel) : LogBuffer :=
  { lb with currentLevel := level }

/-! ## Helper lemmas about the digit renderings -/

theorem decCharsCore_length_le (fuel : Nat) :
    ∀ (n : Nat) (acc : Bytes) (k : Nat), n < fuel → n < 10 ^ k → 1 ≤ k →
      (decCharsCore fuel n acc).length ≤ k + acc.length := by
  induction fuel with
  | zero => intro n acc k h _ _; omega
  | succ fuel ih =>
    intro n acc k hfuel hk hk1
    rw [decCharsCore]
    by_cases hn : n < 10
    · rw [if_pos hn]
      simp only [List.length_cons]
      omega
    · rw [if_neg hn]
      have hk2 : 2 ≤ k := by
        by_contra hlt
        have hk1' : k = 1 := by omega
        rw [hk1'] at hk
        simp at hk
        omega
      have hsplit : 10 ^ k = 10 ^ (k - 1) * 10 := by
        rw [← pow_succ]
        congr 1
        omega
      have hdiv : n / 10 < 10 ^ (k - 1) := by
        have := hk
        rw [hsplit] at this
        omega
      have := ih (n / 10) (Nat.digitChar (n % 10) :: acc) (k - 1)
        (by omega) hdiv (by omega)
      simp only [List.length_cons] at this
      omega

theorem decChars_length_le (n k : Nat) (hn : n < 10 ^ k) (hk : 1 ≤ k) :
    (decChars n).length ≤ k := by
  have := decCharsCore_length_le (n + 1) n [] k (by omega) hn hk
  simpa [decChars] using this

theorem decCharsCore_length_pos (fuel : Nat) :
    ∀ (n : Nat) (acc : Bytes), n < fuel →
      acc.length < (decCharsCore fuel n acc).length := by
  induction fuel with
  | zero => intro n acc h; omega
  | succ fuel ih =>
    intro n acc hfuel
    rw [decCharsCore]
    by_cases hn : n < 10
    · rw [if_pos hn]; simp
    · rw [if_neg hn]
      have := ih (n / 10) (Nat.digitChar (n % 10) :: acc) (by omega)
      simp only [List.length_cons] at this
      omega

theorem decChars_length_pos (n : Nat) : 1 ≤ (decChars n).length := by
  have := decCharsCore_length_pos (n + 1) n [] (by omega)
  simpa [decChars] using this

theorem hexCharsCore_length_le (fuel : Nat) :
    ∀ (n : Nat) (acc : Bytes) (k : Nat), n < fuel → n < 16 ^ k → 1 ≤ k →
      (hexCharsCore fuel n acc).length ≤ k + acc.length := by
  induction fuel with
  | zero => intro n acc k h _ _; omega
  | succ fuel ih =>
    intro n acc k hfuel hk hk1
    rw [hexCharsCore]
    by_cases hn : n < 16
    · rw [if_pos hn]
      simp only [List.length_cons]
      omega
    · rw [if_neg hn]
      have hk2 : 2 ≤ k := by
        by_contra hlt
        have hk1' : k = 1 := by omega
        rw [hk1'] at hk
        simp at hk
        omega
      have hsplit : 16 ^ k = 16 ^ (k - 1) * 16 := by
        rw [← pow_succ]
        congr 1
        omega
      have hdiv : n / 16 < 16 ^ (k - 1) := by
        have := hk
        rw [hsplit] at this
        omega
      have := ih (n / 16) (hexDigitUpper (n % 16) :: acc) (k - 1)
        (by omega) hdiv (by omega)
      simp only [List.length_cons] at this
      omega

theorem hexChars_length_le (n k : Nat) (hn : n < 16 ^ k) (hk : 1 ≤ k) :
    (hexChars n).length ≤ k := by
  have := hexCharsCore_length_le (n + 1) n [] k (by omega) hn hk
  simpa [hexChars] using this

theorem hexLowerCore_length_le (fuel : Nat) :
    ∀ (n : Nat) (acc : Bytes) (k : Nat), n < fuel → n < 16 ^ k → 1 ≤ k →
      (hexLowerCore fuel n acc).length ≤ k + acc.length := by
  induction fuel with
  | zero => intro n acc k h _ _; omega
  | succ fuel ih =>
    intro n acc k hfuel hk hk1
    rw [hexLowerCore]
    by_cases hn : n < 16
    · rw [if_pos hn]
      simp only [List.length_cons]
      omega
    · rw [if_neg hn]
      have hk2 : 2 ≤ k := by
        by_contra hlt
        have hk1' : k = 1 := by omega
        rw [hk1'] at hk
        simp at hk
        omega
      have hsplit : 16 ^ k = 16 ^ (k - 1) * 16 := by
        rw [← pow_succ]
        congr 1
        omega
      have hdiv : n / 16 < 16 ^ (k - 1) := by
        have := hk
        rw [hsplit] at this
        omega
      have := ih (n / 16) (Nat.digitChar (n % 16) :: acc) (k - 1)
        (by omega) hdiv (by omega)
      simp only [List.length_cons] at this
      omega

theorem hexLower_length_le (n k : Nat) (hn : n < 16 ^ k) (hk : 1 ≤ k) :
    (hexLower n).length ≤ k := by
  have := hexLowerCore_length_le (n + 1) n [] k (by omega) hn hk
  simpa [hexLower] using this

theorem intChars_length_le (i : Int) (hlo : -(2 ^ 63) ≤ i) (hhi : i < 2 ^ 63) :
    (intChars i).length ≤ 20 := by
  have habs : i.natAbs < 10 ^ 19 := by
    have h1 : i.natAbs ≤ 2 ^ 63 := by omega
    have h2 : (2 : Nat) ^ 63 < 10 ^ 19 := by norm_num
    omega
  have hdec := decChars_length_le i.natAbs 19 habs (by omega)
  unfold intChars
  by_cases hi : i < 0
  · rw [if_pos hi]
    simp only [List.length_cons]
    omega
  · rw [if_neg hi]
    omega

theorem pad6_length (n : Nat) (h : n < 1000000) : (pad6 n).length = 6 := by
  have hpow : (10 : Nat) ^ 6 = 1000000 := by norm_num
  have h1 := decChars_length_le n 6 (by omega) (by omega)
  have h2 := decChars_length_pos n
  simp only [pad6, List.length_append, List.length_replicate]
  omega

/-! ## Helper lemmas about `safeAppend` -/

theorem LogBuffer.safeAppend_full (lb : LogBuffer) (rendered : Bytes)
    (hpos : 0 < rendered.length)
    (hfit : rendered.length ≤ BUFFER_SIZE - lb.size - 1) :
    lb.safeAppend rendered =
      { lb with buffer := lb.buffer ++ rendered, size := lb.size + rendered.length } := by
  unfold LogBuffer.safeAppend
  rw [if_pos hpos]
  have hno : ¬ (BUFFER_SIZE - lb.size - 1 < rendered.length) := Nat.not_lt.mpr hfit
  simp [Nat.min_eq_left hfit, List.take_length, hno]

theorem LogBuffer.safeAppend_overflow (lb : LogBuffer) (rendered : Bytes)
    (hover : BUFFER_SIZE - lb.size - 1 < rendered.length) :
    lb.safeAppend rendered =
      { lb with
        buffer := lb.buffer ++ rendered.take (BUFFER_SIZE - lb.size - 1)
        size := lb.size + (BUFFER_SIZE - lb.size - 1)
        truncated := true } := by
  unfold LogBuffer.safeAppend
  rw [if_pos (by omega)]
  simp only [Nat.min_eq_right (Nat.le_of_lt hover), hover, decide_eq_true_eq,
    decide_eq_true, Bool.or_true]

/-! ## C1 -/

/-- C1: during `print`, the console sink writes the composed line iff the
record severity is at or above the console threshold, and the file sink
writes it iff file logging is enabled (handle open) and the severity is
at or above the file threshold; the two gates are independent — every
combination of (console fired, file fired) is realized by some state. -/
theorem C1_sink_gating :
    (∀ (lb : LogBuffer) (now : Nat),
      (((lb.printUnsafe now).consoleOut.isSome = true) ↔
        lb.consoleThreshold.toNat ≤ lb.currentLevel.toNat) ∧
      (((lb.printUnsafe now).fileOut.isSome = true) ↔
        (lb.fileLoggingEnabled = true ∧ lb.fileOpen = true ∧
          lb.fileThreshold.toNat ≤ lb.currentLevel.toNat))) ∧
    (∀ bc bf : Bool, ∃ (lb : LogBuffer) (now : Nat),
      (lb.printUnsafe now).consoleOut.isSome = bc ∧
      (lb.printUnsafe now).fileOut.isSome = bf) := by
  constructor
  · intro lb now
    simp only [LogBuffer.printUnsafe]
    split
    · rename_i h
      refine ⟨?_, ?_⟩
      · simp only [Option.isSome_none, Bool.false_eq_true, false_iff]
        omega
      · simp only [Option.isSome_none, Bool.false_eq_true, false_iff]
        rintro ⟨hen, hop, hth⟩
        rcases h.2 with h2 | h2
        · exact h2 hen
        · omega
    · refine ⟨?_, ?_⟩
      · by_cases hc : lb.consoleThreshold.toNat ≤ lb.currentLevel.toNat
        · rw [if_pos hc]
          simp [hc]
        · rw [if_neg hc]
          simp [hc]
      · by_cases hf : (lb.fileLoggingEnabled = true ∧
            lb.fileThreshold.toNat ≤ lb.currentLevel.toNat ∧ lb.fileOpen = true)
        · rw [if_pos hf]
          simp only [Option.isSome_some, true_iff]
          tauto
        · rw [if_neg hf]
          simp only [Option.isSome_none, Bool.false_eq_true, false_iff]
          tauto
  · intro bc bf
    cases bc <;> cases bf
    · exact ⟨{ consoleThreshold := .EC_ERROR }, 0, by decide⟩
    · exact ⟨{ consoleThreshold := .EC_ERROR, fileLoggingEnabled := true, fileOpen := true }, 0, by decide⟩
    · exact ⟨{}, 0, by decide⟩
    · exact ⟨{ fileLoggingEnabled := true, fileOpen := true }, 0, by decide⟩

/-! ## C9, C10 -/

/-- C9: disabling an already-disabled file sink and flushing with no open
file are no-ops leaving the state unchanged, and `disableFileLogging` is
idempotent. -/
theorem C9_disable_flush_idempotent :
    (∀ lb : LogBuffer, lb.disableFileLogging.disableFileLogging = lb.disableFileLogging) ∧
    (∀ lb : LogBuffer, lb.fileLoggingEnabled = false → lb.fileOpen = false →
      lb.disableFileLogging = lb ∧ lb.flush = lb) := by
  constructor
  · intro lb
    unfold LogBuffer.disableFileLogging
    by_cases h : lb.fileOpen = true
    · simp [h]
    · simp [h]
  · intro lb hen hop
    constructor
    · unfold LogBuffer.disableFileLogging
      rw [if_neg (by simp [hop])]
      rw [← hen]
    · unfold LogBuffer.flush
      rw [if_neg (by simp [hop])]

/-- C9 witness: a concrete already-disabled state. -/
theorem C9_disable_flush_idempotent_witness :
    ({ consoleThreshold := .EC_DEBUG } : LogBuffer).disableFileLogging =
        { consoleThreshold := .EC_DEBUG } ∧
      ({ consoleThreshold := .EC_DEBUG } : LogBuffer).flush =
        { consoleThreshold := .EC_DEBUG } :=
  C9_disable_flush_idempotent.2 { consoleThreshold := .EC_DEBUG } rfl rfl

/-- C10: calling `enableFileLogging` while the sink is already enabled is
a no-op for every argument — the filename is ignored and the whole state
is unchanged. -/
theorem C10_enable_noop (lb : LogBuffer) (filename : Bytes) (now : Nat) (openOk : Bool)
    (h : lb.fileLoggingEnabled = true) :
    lb.enableFileLogging filename now openOk = lb := by
  unfold LogBuffer.enableFileLogging
  rw [if_pos h]

/-- C10 witness: enabling again with a different filename and a failing
open changes nothing. -/
theorem C10_enable_noop_witness :
    ({ fileLoggingEnabled := true, fileOpen := true } : LogBuffer).enableFileLogging
        "other.txt".data 123456789 false =
      { fileLoggingEnabled := true, fileOpen := true } :=
  C10_enable_noop { fileLoggingEnabled := true, fileOpen := true } "other.txt".data
    123456789 false rfl

/-! ## C5 -/

/-- C5: every `printUnsafe` call ends with a reset record (size `0`,
level back to `INFO`, truncation flag clear), whether or not any sink
fired; and when the severity is below the console threshold and the
file sink is disabled or the severity is below the file threshold, the
call discards the record — no console bytes, no file line, and the
state is exactly the reset of the input (no timestamp-cache update, no
stream change). -/
theorem C5_print_resets (lb : LogBuffer) (now : Nat) :
    ((lb.printUnsafe now).state.size = 0 ∧
     (lb.printUnsafe now).state.buffer = [] ∧
     (lb.printUnsafe now).state.currentLevel = .EC_INFO ∧
     (lb.printUnsafe now).state.truncated = false) ∧
    (lb.currentLevel.toNat < lb.consoleThreshold.toNat →
      (¬ lb.fileLoggingEnabled = true ∨ lb.currentLevel.toNat < lb.fileThreshold.toNat) →
      lb.printUnsafe now = ⟨none, none, lb.reset⟩) := by
  constructor
  · simp only [LogBuffer.printUnsafe]
    split
    · simp [LogBuffer.reset]
    · simp [LogBuffer.reset]
  · intro h1 h2
    simp only [LogBuffer.printUnsafe]
    rw [if_pos ⟨h1, h2⟩]

/-- C5 witness: a `VERBOSE` record against an `ERROR` console threshold
with the file sink disabled is discarded and the state reset. -/
theorem C5_print_resets_witness :
    (({ currentLevel := .EC_VERBOSE, consoleThreshold := .EC_ERROR } : LogBuffer).printUnsafe
        700).state.size = 0 ∧
      ({ currentLevel := .EC_VERBOSE, consoleThreshold := .EC_ERROR } : LogBuffer).printUnsafe
          700 =
        ⟨none, none,
          ({ currentLevel := .EC_VERBOSE, consoleThreshold := .EC_ERROR } : LogBuffer).reset⟩ :=
  ⟨(C5_print_resets { currentLevel := .EC_VERBOSE, consoleThreshold := .EC_ERROR } 700).1.1,
    (C5_print_resets { currentLevel := .EC_VERBOSE, consoleThreshold := .EC_ERROR } 700).2
      (by decide) (by decide)⟩

/-! ## C6 -/

/-- One buffer-touching operation of the public interface: the append
overloads, `appendHex`, `printUnsafe`, `reset`. -/
inductive LogOp where
  | opChar (c : Char)
  | opCStr (text : Option Bytes)
  | opStr (text : Bytes)
  | opSV (text : Bytes)
  | opBool (value : Bool)
  | opInt (value : Int)
  | opUnsigned (value : Nat)
  | opHex (value : Nat)
  | opFloat (rendered : Bytes)
  | opPtr (addr : Nat)
  | opPrint (now : Nat)
  | opReset

/-- Dispatch of one operation on the buffer state. -/
def LogBuffer.step (lb : LogBuffer) : LogOp → LogBuffer
  | .opChar c => lb.appendChar c
  | .opCStr text => lb.appendCStr text
  | .opStr text => lb.appendStr text
  | .opSV text => lb.appendSV text
  | .opBool value => lb.appendBool value
  | .opInt value => lb.appendInt value
  | .opUnsigned value => lb.appendUnsigned value
  | .opHex value => lb.appendHex value
  | .opFloat rendered => lb.appendFloat rendered
  | .opPtr addr => lb.appendPtr addr
  | .opPrint now => (lb.printUnsafe now).state
  | .opReset => lb.reset

/-- A sequence of operations, applied in order. -/
def LogBuffer.run (lb : LogBuffer) (ops : List LogOp) : LogBuffer :=
  ops.foldl LogBuffer.step lb

theorem LogBuffer.safeAppend_size_le (lb : LogBuffer) (rendered : Bytes)
    (h : lb.size < BUFFER_SIZE) : (lb.safeAppend rendered).size < BUFFER_SIZE := by
  unfold LogBuffer.safeAppend
  split
  · simp only
    unfold BUFFER_SIZE at h ⊢
    omega
  · exact h

theorem LogBuffer.step_size_lt (lb : LogBuffer) (op : LogOp)
    (h : lb.size < BUFFER_SIZE) : (lb.step op).size < BUFFER_SIZE := by
  have hsa := lb.safeAppend_size_le
  have hpr : ∀ now, (lb.printUnsafe now).state.size < BUFFER_SIZE := by
    intro now
    simp only [LogBuffer.printUnsafe]
    split
    · simp [LogBuffer.reset, BUFFER_SIZE]
    · simp [LogBuffer.reset, BUFFER_SIZE]
  cases op with
  | opChar c =>
    simp only [LogBuffer.step, LogBuffer.appendChar]
    split
    · exact h
    · exact hsa _ h
  | opCStr text =>
    simp only [LogBuffer.step, LogBuffer.appendCStr]
    split
    · split
      · exact h
      · exact h
    · exact hsa _ h
  | opStr text =>
    simp only [LogBuffer.step, LogBuffer.appendStr, LogBuffer.appendCStr]
    split
    · exact h
    · split
      · split
        · exact h
        · exact h
      · exact hsa _ h
  | opSV text =>
    simp only [LogBuffer.step, LogBuffer.appendSV]
    split
    · exact h
    · split
      · exact hsa _ h
      · exact h
  | opBool value =>
    simp only [LogBuffer.step, LogBuffer.appendBool]
    split
    · exact h
    · exact hsa _ h
  | opInt value =>
    simp only [LogBuffer.step, LogBuffer.appendInt]
    split
    · exact h
    · exact hsa _ h
  | opUnsigned value =>
    simp only [LogBuffer.step, LogBuffer.appendUnsigned]
    split
    · exact h
    · exact hsa _ h
  | opHex value =>
    simp only [LogBuffer.step, LogBuffer.appendHex]
    split
    · exact h
    · exact hsa _ h
  | opFloat rendered =>
    simp only [LogBuffer.step, LogBuffer.appendFloat]
    split
    · exact h
    · exact hsa _ h
  | opPtr addr =>
    simp only [LogBuffer.step, LogBuffer.appendPtr]
    split
    · exact h
    · exact hsa _ h
  | opPrint now =>
    simp only [LogBuffer.step]
    exact hpr now
  | opReset =>
    simp only [LogBuffer.step, LogBuffer.reset]
    simp [BUFFER_SIZE]

theorem LogBuffer.run_size_lt (ops : List LogOp) :
    ∀ lb : LogBuffer, lb.size < BUFFER_SIZE → (lb.run ops).size < BUFFER_SIZE := by
  induction ops with
  | nil => intro lb h; exact h
  | cons op ops ih =>
    intro lb h
    exact ih (lb.step op) (lb.step_size_lt op h)

/-- C6: the invariant `0 ≤ size < capacity` (`size ≤ 4095`) holds in the
initial state, is preserved by every append, `appendHex`, `print` and
`reset` step, and therefore holds after every sequence of such
operations. -/
theorem C6_size_invariant :
    (({} : LogBuffer).size < BUFFER_SIZE) ∧
    (∀ (lb : LogBuffer) (op : LogOp), lb.size < BUFFER_SIZE →
      (lb.step op).size < BUFFER_SIZE ∧ (lb.step op).size ≤ BUFFER_SIZE - 1) ∧
    (∀ ops : List LogOp, (({} : LogBuffer).run ops).size < BUFFER_SIZE) := by
  refine ⟨by decide, ?_, ?_⟩
  · intro lb op h
    have := lb.step_size_lt op h
    exact ⟨this, by unfold BUFFER_SIZE at this ⊢; omega⟩
  · intro ops
    exact LogBuffer.run_size_lt ops {} (by decide)

/-- C6 witness: one preservation step at a concrete state. -/
theorem C6_size_invariant_witness :
    (({ buffer := "x ".data, size := 2 } : LogBuffer).step (.opBool true)).size <
      BUFFER_SIZE ∧
    (({ buffer := "x ".data, size := 2 } : LogBuffer).step (.opBool true)).size ≤
      BUFFER_SIZE - 1 :=
  C6_size_invariant.2.1 { buffer := "x ".data, size := 2 } (.opBool true) (by decide)

/-! ## C7 -/

/-- C7 counterexample: appending an empty null-terminated text to an
empty record is not a no-op (it appends one separator space), and
appending a null text pointer to a full record is not a no-op (it sets
the truncated flag). -/
theorem C7_counterexample :
    (({} : LogBuffer).appendCStr (some [])).buffer = [' '] ∧
    (({} : LogBuffer).appendCStr (some [])).size = 1 ∧
    ({} : LogBuffer).size = 0 ∧
    (({ buffer := List.replicate 4095 'a', size := 4095 } : LogBuffer).appendCStr
        none).truncated = true ∧
    ({ buffer := List.replicate 4095 'a', size := 4095 } : LogBuffer).truncated = false := by
  refine ⟨by decide, by decide, rfl, ?_, rfl⟩
  unfold LogBuffer.appendCStr
  rw [if_pos (Or.inl rfl), if_pos (by norm_num [BUFFER_SIZE])]

/-- C7 amended: appending an empty `std::string` or an empty
`string_view` is a no-op; below the full mark a null text pointer is a
no-op and an empty null-terminated text appends exactly one separator
space; at the full mark (`size ≥ capacity − 1`) both the null pointer
and the empty null-terminated text only set the truncated flag.  No
shape raises an error. -/
theorem C7_empty_null_appends (lb : LogBuffer) :
    lb.appendStr [] = lb ∧
    lb.appendSV [] = lb ∧
    (lb.size < BUFFER_SIZE - 1 →
      lb.appendCStr none = lb ∧
      lb.appendCStr (some []) =
        { lb with buffer := lb.buffer ++ [' '], size := lb.size + 1 }) ∧
    (BUFFER_SIZE - 1 ≤ lb.size →
      lb.appendCStr none = { lb with truncated := true } ∧
      lb.appendCStr (some []) = { lb with truncated := true }) := by
  refine ⟨?_, ?_, ?_, ?_⟩
  · simp [LogBuffer.appendStr]
  · simp [LogBuffer.appendSV]
  · intro h
    constructor
    · unfold LogBuffer.appendCStr
      rw [if_pos (Or.inl rfl), if_neg (by omega)]
    · unfold LogBuffer.appendCStr
      rw [if_neg (by simp; omega)]
      have := lb.safeAppend_full [' '] (by simp) (by simp; omega)
      simpa using this
  · intro h
    constructor
    · unfold LogBuffer.appendCStr
      rw [if_pos (Or.inl rfl), if_pos h]
    · unfold LogBuffer.appendCStr
      rw [if_pos (Or.inr h), if_pos h]

/-- C7 witness: the no-op shapes at a concrete small state. -/
theorem C7_empty_null_appends_witness :
    ({ buffer := "a ".data, size := 2 } : LogBuffer).appendCStr none =
        { buffer := "a ".data, size := 2 } ∧
      ({ buffer := "a ".data, size := 2 } : LogBuffer).appendCStr (some []) =
        { buffer := "a ".data ++ [' '], size := 3 } :=
  (C7_empty_null_appends { buffer := "a ".data, size := 2 }).2.2.1 (by decide)

/-! ## C2 -/

theorem wrap64_bounds (i : Int) : -(2 ^ 63) ≤ wrap64 i ∧ wrap64 i < 2 ^ 63 := by
  unfold wrap64
  have hpos : (0 : Int) < 2 ^ 64 := by norm_num
  have h1 := Int.emod_nonneg (i + 2 ^ 63) (by norm_num : (2 : Int) ^ 64 ≠ 0)
  have h2 := Int.emod_lt_of_pos (i + 2 ^ 63) hpos
  constructor
  · omega
  · omega

theorem intChars_wrap64_length_le (i : Int) : (intChars (wrap64 i)).length ≤ 20 :=
  intChars_length_le (wrap64 i) (wrap64_bounds i).1 (wrap64_bounds i).2

theorem decChars_mod64_length_le (n : Nat) : (decChars (n % 2 ^ 64)).length ≤ 20 := by
  have hm : n % 2 ^ 64 < 2 ^ 64 := Nat.mod_lt n (by norm_num)
  have hpow : (2 : Nat) ^ 64 < 10 ^ 20 := by norm_num
  exact decChars_length_le (n % 2 ^ 64) 20 (by omega) (by omega)

theorem hexChars_mod64_length_le (n : Nat) : (hexChars (n % 2 ^ 64)).length ≤ 16 := by
  have hm : n % 2 ^ 64 < 2 ^ 64 := Nat.mod_lt n (by norm_num)
  have hpow : (16 : Nat) ^ 16 = 2 ^ 64 := by norm_num
  exact hexChars_length_le (n % 2 ^ 64) 16 (by omega) (by omega)

theorem ptrRender_length_le (a : Nat) : (ptrRender a).length ≤ 18 := by
  unfold ptrRender
  split
  · simp
  · have hm : a % 2 ^ 64 < 2 ^ 64 := Nat.mod_lt a (by norm_num)
    have hpow : (16 : Nat) ^ 16 = 2 ^ 64 := by norm_num
    have h := hexLower_length_le (a % 2 ^ 64) 16 (by omega) (by omega)
    simp only [List.length_cons]
    omega

/-- C2 counterexample: with 4065 bytes occupied the floating-point
append's 30-byte headroom guard passes, yet the `%.8f` rendering of a
`double` holding the exact integer `2^100` is 40 characters (41 with the
separator), so the append writes a 30-character proper prefix — a
partial write — while setting the truncated flag. -/
theorem C2_counterexample :
    (renderFixed8 (2 ^ 100) ++ [' ']).length = 41 ∧
    (({ size := 4065 } : LogBuffer).appendFloat (renderFixed8 (2 ^ 100))).truncated = true ∧
    (({ size := 4065 } : LogBuffer).appendFloat (renderFixed8 (2 ^ 100))).size = 4095 ∧
    (({ size := 4065 } : LogBuffer).appendFloat (renderFixed8 (2 ^ 100))).buffer =
      (renderFixed8 (2 ^ 100) ++ [' ']).take 30 ∧
    (renderFixed8 (2 ^ 100) ++ [' ']).take 30 ≠ [] ∧
    (renderFixed8 (2 ^ 100) ++ [' ']).take 30 ≠ renderFixed8 (2 ^ 100) ++ [' '] := by
  refine ⟨by decide, by decide, by decide, by decide, by decide, by decide⟩

/-- An append that never leaves a partial value: the state either keeps
buffer and size unchanged, or receives the full rendered text with the
truncation flag untouched. -/
def allOrNothing (lb lb' : LogBuffer) (rendered : Bytes) : Prop :=
  (lb'.buffer = lb.buffer ∧ lb'.size = lb.size) ∨
  (lb'.buffer = lb.buffer ++ rendered ∧ lb'.size = lb.size + rendered.length ∧
    lb'.truncated = lb.truncated)

theorem allOrNothing_of_guard (lb : LogBuffer) (rendered : Bytes) :
    allOrNothing lb { lb with truncated := true } rendered :=
  Or.inl ⟨rfl, rfl⟩

theorem allOrNothing_of_fits (lb : LogBuffer) (rendered : Bytes)
    (hpos : 0 < rendered.length)
    (hfit : rendered.length ≤ BUFFER_SIZE - lb.size - 1) :
    allOrNothing lb (lb.safeAppend rendered) rendered := by
  rw [lb.safeAppend_full rendered hpos hfit]
  exact Or.inr ⟨rfl, rfl, rfl⟩

/-- C2 amended: every non-text append except floating point (character,
boolean, signed and unsigned integral, hexadecimal, pointer) either
fully writes the value's rendered text or writes nothing, and when its
reserved headroom is insufficient it sets the truncated flag and writes
nothing; the floating-point append is all-or-nothing only up to its
headroom guard — when the guard passes but the `%.8f` rendering exceeds
the remaining capacity it is hard-truncated mid-string exactly like a
text append, consuming the available capacity and setting the flag. -/
theorem C2_all_or_nothing (lb : LogBuffer) :
    (∀ c : Char, allOrNothing lb (lb.appendChar c) ([c] ++ [' '])) ∧
    (∀ b : Bool, allOrNothing lb (lb.appendBool b)
      ((if b then "true" else "false").data ++ [' '])) ∧
    (∀ i : Int, allOrNothing lb (lb.appendInt i) (intChars (wrap64 i) ++ [' '])) ∧
    (∀ n : Nat, allOrNothing lb (lb.appendUnsigned n) (decChars (n % 2 ^ 64) ++ [' '])) ∧
    (∀ n : Nat, allOrNothing lb (lb.appendHex n)
      ('0' :: 'x' :: hexChars (n % 2 ^ 64) ++ [' '])) ∧
    (∀ a : Nat, allOrNothing lb (lb.appendPtr a) (ptrRender a ++ [' '])) ∧
    (∀ c : Char, BUFFER_SIZE - 2 ≤ lb.size →
      lb.appendChar c = { lb with truncated := true }) ∧
    (∀ b : Bool, BUFFER_SIZE - 10 ≤ lb.size →
      lb.appendBool b = { lb with truncated := true }) ∧
    (∀ i : Int, BUFFER_SIZE - 25 ≤ lb.size →
      lb.appendInt i = { lb with truncated := true }) ∧
    (∀ n : Nat, BUFFER_SIZE - 25 ≤ lb.size →
      lb.appendUnsigned n = { lb with truncated := true }) ∧
    (∀ n : Nat, BUFFER_SIZE - 25 ≤ lb.size →
      lb.appendHex n = { lb with truncated := true }) ∧
    (∀ a : Nat, BUFFER_SIZE - 20 ≤ lb.size →
      lb.appendPtr a = { lb with truncated := true }) ∧
    (∀ r : Bytes, lb.size < BUFFER_SIZE - 30 → BUFFER_SIZE - lb.size - 1 < r.length + 1 →
      lb.appendFloat r = { lb with
        buffer := lb.buffer ++ (r ++ [' ']).take (BUFFER_SIZE - lb.size - 1)
        size := lb.size + (BUFFER_SIZE - lb.size - 1)
        truncated := true }) := by
  refine ⟨?_, ?_, ?_, ?_, ?_, ?_, ?_, ?_, ?_, ?_, ?_, ?_, ?_⟩
  · intro c
    unfold LogBuffer.appendChar
    by_cases hg : BUFFER_SIZE - 2 ≤ lb.size
    · rw [if_pos hg]
      exact allOrNothing_of_guard lb _
    · rw [if_neg hg]
      refine allOrNothing_of_fits lb _ (by simp) ?_
      simp only [List.length_append, List.length_cons, List.length_nil]
      omega
  · intro b
    unfold LogBuffer.appendBool
    by_cases hg : BUFFER_SIZE - 10 ≤ lb.size
    · rw [if_pos hg]
      exact allOrNothing_of_guard lb _
    · rw [if_neg hg]
      have hlen : ((if b then "true" else "false").data).length ≤ 5 := by
        cases b <;> decide
      refine allOrNothing_of_fits lb _ (by simp) ?_
      simp only [List.length_append, List.length_cons, List.length_nil]
      omega
  · intro i
    unfold LogBuffer.appendInt
    by_cases hg : BUFFER_SIZE - 25 ≤ lb.size
    · rw [if_pos hg]
      exact allOrNothing_of_guard lb _
    · rw [if_neg hg]
      have hlen := intChars_wrap64_length_le i
      refine allOrNothing_of_fits lb _ (by simp) ?_
      simp only [List.length_append, List.length_cons, List.length_nil]
      omega
  · intro n
    unfold LogBuffer.appendUnsigned
    by_cases hg : BUFFER_SIZE - 25 ≤ lb.size
    · rw [if_pos hg]
      exact allOrNothing_of_guard lb _
    · rw [if_neg hg]
      have hlen := decChars_mod64_length_le n
      refine allOrNothing_of_fits lb _ (by simp) ?_
      simp only [List.length_append, List.length_cons, List.length_nil]
      omega
  · intro n
    unfold LogBuffer.appendHex
    by_cases hg : BUFFER_SIZE - 25 ≤ lb.size
    · rw [if_pos hg]
      exact allOrNothing_of_guard lb _
    · rw [if_neg hg]
      have hlen := hexChars_mod64_length_le n
      refine allOrNothing_of_fits lb _ (by simp) ?_
      simp only [List.length_append, List.length_cons, List.length_nil]
      omega
  · intro a
    unfold LogBuffer.appendPtr
    by_cases hg : BUFFER_SIZE - 20 ≤ lb.size
    · rw [if_pos hg]
      exact allOrNothing_of_guard lb _
    · rw [if_neg hg]
      have hlen := ptrRender_length_le a
      refine allOrNothing_of_fits lb _ (by simp) ?_
      simp only [List.length_append, List.length_cons, List.length_nil]
      omega
  · intro c h
    unfold LogBuffer.appendChar
    rw [if_pos h]
  · intro b h
    unfold LogBuffer.appendBool
    rw [if_pos h]
  · intro i h
    unfold LogBuffer.appendInt
    rw [if_pos h]
  · intro n h
    unfold LogBuffer.appendUnsigned
    rw [if_pos h]
  · intro n h
    unfold LogBuffer.appendHex
    rw [if_pos h]
  · intro a h
    unfold LogBuffer.appendPtr
    rw [if_pos h]
  · intro r h1 h2
    unfold LogBuffer.appendFloat
    rw [if_neg (by omega)]
    rw [lb.safeAppend_overflow (r ++ [' ']) (by simp only [List.length_append]; simpa using h2)]

/-- C2 witness: the integral guard clause and the floating-point
hard-truncation clause at concrete states. -/
theorem C2_all_or_nothing_witness :
    ({ size := 4071 } : LogBuffer).appendInt 7 =
        { ({ size := 4071 } : LogBuffer) with truncated := true } ∧
      ({ size := 4065 } : LogBuffer).appendFloat (renderFixed8 (2 ^ 100)) =
        { ({ size := 4065 } : LogBuffer) with
            buffer := ({ size := 4065 } : LogBuffer).buffer ++
              (renderFixed8 (2 ^ 100) ++ [' ']).take
                (BUFFER_SIZE - ({ size := 4065 } : LogBuffer).size - 1)
            size := ({ size := 4065 } : LogBuffer).size +
              (BUFFER_SIZE - ({ size := 4065 } : LogBuffer).size - 1)
            truncated := true } :=
  ⟨(C2_all_or_nothing { size := 4071 }).2.2.2.2.2.2.2.2.1 7 (by decide),
    (C2_all_or_nothing { size := 4065 }).2.2.2.2.2.2.2.2.2.2.2.2 (renderFixed8 (2 ^ 100))
      (by decide) (by decide)⟩

/-! ## C3 -/

/-- One appended value of a record, by shape. -/
inductive LogItem where
  | itChar (c : Char)
  | itCStr (t : Bytes)
  | itStr (t : Bytes)
  | itSV (t : Bytes)
  | itBool (b : Bool)
  | itInt (i : Int)
  | itUnsigned (n : Nat)
  | itHex (n : Nat)
  | itFloat (r : Bytes)
  | itPtr (a : Nat)

/-- Dispatch of one value to its append overload. -/
def LogBuffer.applyItem (lb : LogBuffer) : LogItem → LogBuffer
  | .itChar c => lb.appendChar c
  | .itCStr t => lb.appendCStr (some t)
  | .itStr t => lb.appendStr t
  | .itSV t => lb.appendSV t
  | .itBool b => lb.appendBool b
  | .itInt i => lb.appendInt i
  | .itUnsigned n => lb.appendUnsigned n
  | .itHex n => lb.appendHex n
  | .itFloat r => lb.appendFloat r
  | .itPtr a => lb.appendPtr a

/-- The canonical textual form of one value (the rendered text without
the trailing separator). -/
def LogItem.form : LogItem → Bytes
  | .itChar c => [c]
  | .itCStr t => t
  | .itStr t => t
  | .itSV t => t
  | .itBool b => (if b then "true" else "false").data
  | .itInt i => intChars (wrap64 i)
  | .itUnsigned n => decChars (n % 2 ^ 64)
  | .itHex n => '0' :: 'x' :: hexChars (n % 2 ^ 64)
  | .itFloat r => r
  | .itPtr a => ptrRender a

/-- The `std::string` and `string_view` overloads silently drop empty
values; all other shapes place no side condition on the value. -/
def LogItem.ok : LogItem → Prop
  | .itStr t => t ≠ []
  | .itSV t => t ≠ []
  | _ => True

/-- A record assembled by a sequence of appends, in call order. -/
def runItems (lb : LogBuffer) (items : List LogItem) : LogBuffer :=
  items.foldl LogBuffer.applyItem lb

theorem LogBuffer.safeAppend_form (lb : LogBuffer) (form : Bytes)
    (hfit : lb.size + (form.length + 1) ≤ BUFFER_SIZE - 30) :
    lb.safeAppend (form ++ [' ']) =
      { lb with
        buffer := lb.buffer ++ (form ++ [' '])
        size := lb.size + (form.length + 1) } := by
  have h := lb.safeAppend_full (form ++ [' ']) (by simp)
    (by simp only [List.length_append, List.length_cons, List.length_nil]; omega)
  rw [h]
  simp [List.length_append]

theorem LogBuffer.applyItem_fits (lb : LogBuffer) (it : LogItem) (hok : it.ok)
    (hfit : lb.size + (it.form.length + 1) ≤ BUFFER_SIZE - 30) :
    lb.applyItem it =
      { lb with
        buffer := lb.buffer ++ (it.form ++ [' '])
        size := lb.size + (it.form.length + 1) } := by
  cases it with
  | itChar c =>
    simp only [LogItem.form, List.length_cons, List.length_nil] at hfit ⊢
    simp only [LogBuffer.applyItem, LogBuffer.appendChar]
    rw [if_neg (by omega)]
    simpa using lb.safeAppend_form [c] (by simpa using hfit)
  | itCStr t =>
    simp only [LogItem.form] at hfit ⊢
    simp only [LogBuffer.applyItem, LogBuffer.appendCStr]
    rw [if_neg (by
      rintro (hn | hs)
      · exact Option.noConfusion hn
      · omega)]
    simpa using lb.safeAppend_form t hfit
  | itStr t =>
    simp only [LogItem.ok] at hok
    simp only [LogItem.form] at hfit ⊢
    simp only [LogBuffer.applyItem, LogBuffer.appendStr, LogBuffer.appendCStr]
    rw [if_neg hok]
    rw [if_neg (by
      rintro (hn | hs)
      · exact Option.noConfusion hn
      · omega)]
    simpa using lb.safeAppend_form t hfit
  | itSV t =>
    simp only [LogItem.ok] at hok
    simp only [LogItem.form] at hfit ⊢
    simp only [LogBuffer.applyItem, LogBuffer.appendSV]
    rw [if_neg hok, if_pos (by omega)]
    exact lb.safeAppend_form t hfit
  | itBool b =>
    simp only [LogItem.form] at hfit ⊢
    simp only [LogBuffer.applyItem, LogBuffer.appendBool]
    have hlen : ((if b then "true" else "false").data).length ≤ 5 := by
      cases b <;> decide
    rw [if_neg (by omega)]
    exact lb.safeAppend_form _ hfit
  | itInt i =>
    simp only [LogItem.form] at hfit ⊢
    simp only [LogBuffer.applyItem, LogBuffer.appendInt]
    rw [if_neg (by omega)]
    exact lb.safeAppend_form _ hfit
  | itUnsigned n =>
    simp only [LogItem.form] at hfit ⊢
    simp only [LogBuffer.applyItem, LogBuffer.appendUnsigned]
    rw [if_neg (by omega)]
    exact lb.safeAppend_form _ hfit
  | itHex n =>
    simp only [LogItem.form] at hfit ⊢
    simp only [LogBuffer.applyItem, LogBuffer.appendHex]
    rw [if_neg (by omega)]
    simpa using lb.safeAppend_form ('0' :: 'x' :: hexChars (n % 2 ^ 64)) hfit
  | itFloat r =>
    simp only [LogItem.form] at hfit ⊢
    simp only [LogBuffer.applyItem, LogBuffer.appendFloat]
    rw [if_neg (by omega)]
    exact lb.safeAppend_form _ hfit
  | itPtr a =>
    simp only [LogItem.form] at hfit ⊢
    simp only [LogBuffer.applyItem, LogBuffer.appendPtr]
    rw [if_neg (by omega)]
    exact lb.safeAppend_form _ hfit

theorem runItems_concat (items : List LogItem) :
    ∀ lb : LogBuffer, (∀ it ∈ items, it.ok) →
      lb.size + (items.map (fun it => it.form.length + 1)).sum ≤ BUFFER_SIZE - 30 →
      runItems lb items =
        { lb with
          buffer := lb.buffer ++ (items.map (fun it => it.form ++ [' '])).flatten
          size := lb.size + (items.map (fun it => it.form.length + 1)).sum } := by
  induction items with
  | nil =>
    intro lb hok hfit
    simp [runItems]
  | cons it items ih =>
    intro lb hok hfit
    simp only [List.map_cons, List.sum_cons] at hfit
    have hofit : lb.size + (it.form.length + 1) ≤ BUFFER_SIZE - 30 := by omega
    have happ := lb.applyItem_fits it (hok it (List.mem_cons_self it items)) hofit
    have hrest : (lb.applyItem it).size +
        (items.map (fun it => it.form.length + 1)).sum ≤ BUFFER_SIZE - 30 := by
      rw [happ]
      show lb.size + (it.form.length + 1) +
        (items.map (fun it => it.form.length + 1)).sum ≤ BUFFER_SIZE - 30
      omega
    have hih := ih (lb.applyItem it)
      (fun x hx => hok x (List.mem_cons_of_mem _ hx)) hrest
    show List.foldl LogBuffer.applyItem lb (it :: items) = _
    rw [List.foldl_cons]
    have hrun : List.foldl LogBuffer.applyItem (lb.applyItem it) items =
        runItems (lb.applyItem it) items := rfl
    rw [hrun, hih, happ]
    simp only [List.map_cons, List.sum_cons, List.flatten_cons, List.append_assoc]
    congr 1
    omega

/-- C3 amended: for every sequence of appends whose values are non-empty
in the `std::string`/`string_view` shapes and whose total rendered width
(each value plus its separator) stays at or below capacity minus the
largest per-type headroom (4096 − 30), the assembled record equals the
concatenation of each value's canonical textual form each followed by a
single separator space, in call order, and the truncated flag stays
false. -/
theorem C3_record_assembly (items : List LogItem)
    (hok : ∀ it ∈ items, it.ok)
    (hbound : (items.map (fun it => it.form.length + 1)).sum ≤ BUFFER_SIZE - 30) :
    (runItems {} items).buffer = (items.map (fun it => it.form ++ [' '])).flatten ∧
    (runItems {} items).size = (items.map (fun it => it.form.length + 1)).sum ∧
    (runItems {} items).truncated = false := by
  have h := runItems_concat items {} hok (by simpa using hbound)
  rw [h]
  simp

/-- C3 witness: a concrete record `"hello", 42, true` assembles to
`"hello 42 true "`. -/
theorem C3_record_assembly_witness :
    (runItems {} [LogItem.itCStr "hello".data, LogItem.itInt 42,
        LogItem.itBool true]).buffer = "hello 42 true ".data ∧
      (runItems {} [LogItem.itCStr "hello".data, LogItem.itInt 42,
        LogItem.itBool true]).truncated = false := by
  have h := C3_record_assembly
    [LogItem.itCStr "hello".data, LogItem.itInt 42, LogItem.itBool true]
    (by intro it hit; fin_cases hit <;> trivial) (by decide)
  exact ⟨by rw [h.1]; decide, h.2.2⟩

/-- Modelled from the words of the claim: "the concatenation of each
value's canonical textual form separated by single spaces, in call
order". -/
def claimedRecord : List LogItem → Bytes
  | [] => []
  | [it] => it.form
  | it :: items => it.form ++ ' ' :: claimedRecord items

/-- The two-item sequence used to refute C3 as stated: a 4080-character
text и a small integer. -/
def c3Items : List LogItem := [LogItem.itCStr (List.replicate 4080 'a'), LogItem.itInt 5]


/-- The 4080-character text of the C3 counterexample. -/
def c3Text : Bytes := List.replicate 4080 'a'

theorem c3_general (t : Bytes) (hlen : t.length = 4080) :
    (runItems {} [LogItem.itCStr t, LogItem.itInt 5]).truncated = true ∧
    (runItems {} [LogItem.itCStr t, LogItem.itInt 5]).buffer = t ++ [' '] ∧
    (runItems {} [LogItem.itCStr t, LogItem.itInt 5]).size = 4081 := by
  have happ1 : ({} : LogBuffer).applyItem (LogItem.itCStr t) =
      { ({} : LogBuffer) with
          buffer := ({} : LogBuffer).buffer ++ (t ++ [' '])
          size := ({} : LogBuffer).size + (t ++ [' ']).length } := by
    simp only [LogBuffer.applyItem, LogBuffer.appendCStr]
    rw [if_neg (by
      rintro (hn | hs)
      · exact Option.noConfusion hn
      · simp [BUFFER_SIZE] at hs)]
    simp only [Option.getD_some]
    exact ({} : LogBuffer).safeAppend_full (t ++ [' ']) (by simp)
      (by simp [List.length_append, hlen, BUFFER_SIZE])
  have hrun : runItems {} [LogItem.itCStr t, LogItem.itInt 5] =
      (({} : LogBuffer).applyItem (LogItem.itCStr t)).applyItem (LogItem.itInt 5) := rfl
  rw [hrun, happ1]
  simp only [LogBuffer.applyItem, LogBuffer.appendInt]
  rw [if_pos (by
    show BUFFER_SIZE - 25 ≤ ({} : LogBuffer).size + (t ++ [' ']).length
    simp [List.length_append, hlen, BUFFER_SIZE])]
  refine ⟨rfl, by simp, by simp [List.length_append, hlen]⟩

/-- C3 counterexample: for the two-value sequence `text of 4080
characters, integer 5` the total rendered width stays under the
4096-byte capacity (4083 bytes with both separators, 4082 as the
claimed single-space concatenation), yet the assembled record has the
truncated flag set — the integral append's conservative 25-byte
headroom guard trips at size 4081 — and the buffer differs from the
claimed single-space concatenation of the two canonical forms. -/
theorem C3_counterexample :
    (([LogItem.itCStr c3Text, LogItem.itInt 5].map
      (fun it => it.form.length + 1)).sum = 4083) ∧
    (claimedRecord [LogItem.itCStr c3Text, LogItem.itInt 5]).length = 4082 ∧
    (runItems {} [LogItem.itCStr c3Text, LogItem.itInt 5]).truncated = true ∧
    (runItems {} [LogItem.itCStr c3Text, LogItem.itInt 5]).buffer ≠
      claimedRecord [LogItem.itCStr c3Text, LogItem.itInt 5] := by
  have hchars : intChars (wrap64 5) = ['5'] := by decide
  have hlen : c3Text.length = 4080 := by
    simp only [c3Text, List.length_replicate]
  have hg := c3_general c3Text hlen
  have hclaimlen : (claimedRecord [LogItem.itCStr c3Text, LogItem.itInt 5]).length = 4082 := by
    simp [claimedRecord, LogItem.form, hchars, List.length_append, hlen]
  refine ⟨?_, hclaimlen, hg.1, ?_⟩
  · simp [LogItem.form, hchars, hlen]
  · intro heq
    rw [hg.2.1] at heq
    have hl := congrArg List.length heq
    rw [hclaimlen] at hl
    simp [List.length_append, hlen] at hl

/-! ## C4 -/

theorem printUnsafe_console_truncated (lb : LogBuffer) (now : Nat)
    (hlvl : lb.currentLevel = .EC_INFO) (hcth : lb.consoleThreshold = .EC_VERBOSE)
    (hcol : lb.useColors = false) (htr : lb.truncated = true) :
    ∃ front : Bytes,
      (lb.printUnsafe now).consoleOut = some (front ++ " [TRUNCATED]\n".data) := by
  have hm : " [TRUNCATED]\n".data = " [TRUNCATED]".data ++ ['\n'] := by decide
  simp only [LogBuffer.printUnsafe]
  rw [if_neg (by
    rintro ⟨h1, _⟩
    rw [hlvl, hcth] at h1
    simp [LogLevel.toNat] at h1)]
  rw [if_pos (by rw [hlvl, hcth]; simp [LogLevel.toNat])]
  refine ⟨(lb.getTimestamp now).1 ++ lb.currentLevel.toString ++ " | ".data ++ lb.buffer, ?_⟩
  rw [if_neg (by rw [hcol]; simp)]
  rw [htr]
  simp [List.append_assoc]

/-- C4 amended: appending a 5000-character text to an empty record of
capacity 4096 behaves per shape.  Null-terminated and `std::string`
shapes hard-truncate: the buffer holds exactly the first 4095 (not
~4094) characters, `size = 4095`, `truncated = true`.  The
`string_view` shape writes nothing at all — the buffer stays empty —
while still setting `truncated = true`.  In both cases the emitted
console line ends with the `" [TRUNCATED]"` marker and newline. -/
theorem C4_truncation (t : Bytes) (hlen : t.length = 5000) :
    (({ useColors := false } : LogBuffer).appendCStr (some t)).buffer = t.take 4095 ∧
    (({ useColors := false } : LogBuffer).appendCStr (some t)).size = 4095 ∧
    (({ useColors := false } : LogBuffer).appendCStr (some t)).truncated = true ∧
    ({ useColors := false } : LogBuffer).appendStr t =
      ({ useColors := false } : LogBuffer).appendCStr (some t) ∧
    (({ useColors := false } : LogBuffer).appendSV t).buffer = [] ∧
    (({ useColors := false } : LogBuffer).appendSV t).truncated = true ∧
    (∀ now, ∃ front : Bytes,
      ((({ useColors := false } : LogBuffer).appendCStr (some t)).printUnsafe
        now).consoleOut = some (front ++ " [TRUNCATED]\n".data)) ∧
    (∀ now, ∃ front : Bytes,
      ((({ useColors := false } : LogBuffer).appendSV t).printUnsafe
        now).consoleOut = some (front ++ " [TRUNCATED]\n".data)) := by
  have hne : t ≠ [] := by
    intro h
    rw [h] at hlen
    simp at hlen
  have hS1 : ({ useColors := false } : LogBuffer).appendCStr (some t) =
      { ({ useColors := false } : LogBuffer) with
          buffer := ({ useColors := false } : LogBuffer).buffer ++
            (t ++ [' ']).take (BUFFER_SIZE - ({ useColors := false } : LogBuffer).size - 1)
          size := ({ useColors := false } : LogBuffer).size +
            (BUFFER_SIZE - ({ useColors := false } : LogBuffer).size - 1)
          truncated := true } := by
    simp only [LogBuffer.appendCStr]
    rw [if_neg (by
      rintro (hn | hs)
      · exact Option.noConfusion hn
      · simp [BUFFER_SIZE] at hs)]
    simp only [Option.getD_some]
    exact ({ useColors := false } : LogBuffer).safeAppend_overflow (t ++ [' '])
      (by simp only [List.length_append, hlen, List.length_cons, List.length_nil]
          norm_num [BUFFER_SIZE])
  have hbuf : ({ useColors := false } : LogBuffer).buffer ++
      (t ++ [' ']).take (BUFFER_SIZE - ({ useColors := false } : LogBuffer).size - 1) =
      t.take 4095 := by
    show [] ++ (t ++ [' ']).take 4095 = t.take 4095
    rw [List.nil_append]
    exact List.take_append_of_le_length (by omega)
  have hSV : ({ useColors := false } : LogBuffer).appendSV t =
      { ({ useColors := false } : LogBuffer) with truncated := true } := by
    simp only [LogBuffer.appendSV]
    rw [if_neg hne, if_neg (by
      show ¬ (t.length < BUFFER_SIZE - ({ useColors := false } : LogBuffer).size - 1)
      rw [hlen]
      norm_num [BUFFER_SIZE])]
  refine ⟨?_, ?_, ?_, ?_, ?_, ?_, ?_, ?_⟩
  · rw [hS1]
    exact hbuf
  · rw [hS1]
    simp [BUFFER_SIZE]
  · rw [hS1]
  · simp only [LogBuffer.appendStr]
    rw [if_neg hne]
  · rw [hSV]
  · rw [hSV]
  · intro now
    apply printUnsafe_console_truncated
    · rw [hS1]
    · rw [hS1]
    · rw [hS1]
    · rw [hS1]
  · intro now
    apply printUnsafe_console_truncated
    · rw [hSV]
    · rw [hSV]
    · rw [hSV]
    · rw [hSV]

/-- C4 witness: the amended behavior at the concrete 5000-character
text. -/
theorem C4_truncation_witness :
    (({ useColors := false } : LogBuffer).appendCStr
        (some (List.replicate 5000 'x'))).buffer = (List.replicate 5000 'x').take 4095 ∧
      (({ useColors := false } : LogBuffer).appendCStr
        (some (List.replicate 5000 'x'))).truncated = true ∧
      (({ useColors := false } : LogBuffer).appendSV
        (List.replicate 5000 'x')).buffer = [] :=
  ⟨(C4_truncation (List.replicate 5000 'x') (by simp only [List.length_replicate])).1,
    (C4_truncation (List.replicate 5000 'x') (by simp only [List.length_replicate])).2.2.1,
    (C4_truncation (List.replicate 5000 'x') (by simp only [List.length_replicate])).2.2.2.2.1⟩

/-- C4 counterexample: for the `string_view` shape the claim fails — the
5000-character view is skipped entirely, leaving the buffer empty
rather than holding the first ~4094 characters (the truncated flag is
still set). -/
theorem C4_counterexample :
    (({ useColors := false } : LogBuffer).appendSV (List.replicate 5000 'x')).buffer = [] ∧
    (({ useColors := false } : LogBuffer).appendSV
      (List.replicate 5000 'x')).truncated = true ∧
    (List.replicate 5000 'x').take 4094 ≠ [] ∧
    (List.replicate 5000 'x').take 4095 ≠ [] := by
  have h1 := (C4_truncation (List.replicate 5000 'x')
    (by simp only [List.length_replicate])).2.2.2.2.1
  have h2 := (C4_truncation (List.replicate 5000 'x')
    (by simp only [List.length_replicate])).2.2.2.2.2.1
  refine ⟨h1, h2, ?_, ?_⟩
  · intro h
    have := congrArg List.length h
    rw [List.length_take, List.length_replicate] at this
    simp at this
  · intro h
    have := congrArg List.length h
    rw [List.length_take, List.length_replicate] at this
    simp at this

/-! ## C8 -/

theorem decCharsCore_digits (fuel : Nat) :
    ∀ (n : Nat) (acc : Bytes), (∀ c ∈ acc, c.isDigit = true) →
      ∀ c ∈ decCharsCore fuel n acc, c.isDigit = true := by
  have hd : ∀ k, k < 10 → (Nat.digitChar k).isDigit = true := by decide
  induction fuel with
  | zero => intro n acc hacc; exact hacc
  | succ fuel ih =>
    intro n acc hacc c hc
    rw [decCharsCore] at hc
    by_cases hn : n < 10
    · rw [if_pos hn] at hc
      rcases List.mem_cons.mp hc with h | h
      · rw [h]; exact hd n hn
      · exact hacc c h
    · rw [if_neg hn] at hc
      refine ih (n / 10) (Nat.digitChar (n % 10) :: acc) ?_ c hc
      intro x hx
      rcases List.mem_cons.mp hx with h | h
      · rw [h]; exact hd (n % 10) (Nat.mod_lt n (by omega))
      · exact hacc x h

theorem pad6_digits (n : Nat) : ∀ c ∈ pad6 n, c.isDigit = true := by
  intro c hc
  unfold pad6 at hc
  rw [List.mem_append] at hc
  rcases hc with h | h
  · rw [List.eq_of_mem_replicate h]
    decide
  · exact decCharsCore_digits (n + 1) n [] (by simp) c h

/-- C8 counterexample: the 1 ms cache window is measured from the last
recomputation, not between requests — with the cache computed at time
0, a request at 900 µs is served from the cache while a request at
1700 µs (only 800 µs later, within 1 ms of the first) recomputes and
returns a different string. -/
theorem C8_counterexample :
    1700 - 900 < 1000 ∧
    ((({} : LogBuffer).getTimestamp 0).2.getTimestamp 900).1 =
      (({} : LogBuffer).getTimestamp 0).1 ∧
    ((({} : LogBuffer).getTimestamp 0).2.getTimestamp 1700).1 ≠
      ((({} : LogBuffer).getTimestamp 0).2.getTimestamp 900).1 := by
  refine ⟨by omega, by decide, by decide⟩

/-- C8 amended: a freshly computed timestamp is
`<date-and-or-time>.<6-digit-microseconds> | `, with the date part
present exactly when `includeDate` is set; a request less than one
(truncated) millisecond after the last recomputation returns the cached
string with no state change, so any two such requests return identical
strings; a request at least 1 ms after the last recomputation — in
particular the later of two requests spaced more than 1 ms apart —
recomputes from the clock and refreshes the cache.  Two requests within
1 ms of each other need not agree when the cache entry between them
goes stale. -/
theorem C8_timestamp :
    (∀ (lb : LogBuffer) (t : Nat), lb.cachedTimestamp ≠ [] →
      (t - lb.lastTimestampUpdate) / 1000 < 1 →
      lb.getTimestamp t = (lb.cachedTimestamp, lb)) ∧
    (∀ (lb : LogBuffer) (t : Nat), lb.lastTimestampUpdate + 1000 ≤ t →
      lb.getTimestamp t = (renderTimestamp lb.includeDate t,
        { lb with
            cachedTimestamp := renderTimestamp lb.includeDate t
            lastTimestampUpdate := t })) ∧
    (∀ (d : Bool) (t : Nat), ∃ micro : Bytes,
      micro.length = 6 ∧ (∀ c ∈ micro, c.isDigit = true) ∧
      renderTimestamp d t = renderBase d t ++ '.' :: (micro ++ " | ".data) ∧
      (d = true → renderBase d t =
        renderDate (t / 1000000) ++ ' ' :: renderTimeOfDay (t / 1000000)) ∧
      (d = false → renderBase d t = renderTimeOfDay (t / 1000000))) ∧
    (∀ (lb : LogBuffer) (t1 t2 : Nat), lb.cachedTimestamp ≠ [] →
      (t1 - lb.lastTimestampUpdate) / 1000 < 1 →
      (t2 - lb.lastTimestampUpdate) / 1000 < 1 →
      (lb.getTimestamp t1).1 = (lb.getTimestamp t2).1) ∧
    (∀ (lb : LogBuffer) (t1 t2 : Nat), lb.lastTimestampUpdate ≤ t1 → t1 + 1000 < t2 →
      ((lb.getTimestamp t1).2.getTimestamp t2).1 = renderTimestamp lb.includeDate t2) := by
  have hhit : ∀ (lb : LogBuffer) (t : Nat), lb.cachedTimestamp ≠ [] →
      (t - lb.lastTimestampUpdate) / 1000 < 1 →
      lb.getTimestamp t = (lb.cachedTimestamp, lb) := by
    intro lb t h1 h2
    unfold LogBuffer.getTimestamp
    rw [if_pos ⟨h1, h2⟩]
  have hmiss : ∀ (lb : LogBuffer) (t : Nat), lb.lastTimestampUpdate + 1000 ≤ t →
      lb.getTimestamp t = (renderTimestamp lb.includeDate t,
        { lb with
            cachedTimestamp := renderTimestamp lb.includeDate t
            lastTimestampUpdate := t }) := by
    intro lb t h
    unfold LogBuffer.getTimestamp
    rw [if_neg (by
      rintro ⟨_, hlt⟩
      omega)]
  refine ⟨hhit, hmiss, ?_, ?_, ?_⟩
  · intro d t
    refine ⟨pad6 (t % 1000000), pad6_length _ (Nat.mod_lt t (by norm_num)),
      pad6_digits _, by simp [renderTimestamp, List.append_assoc], ?_, ?_⟩
    · intro hd
      rw [hd]
      simp [renderBase]
    · intro hd
      rw [hd]
      simp [renderBase]
  · intro lb t1 t2 h h1 h2
    rw [hhit lb t1 h h1, hhit lb t2 h h2]
  · intro lb t1 t2 hle hgap
    by_cases hc : lb.cachedTimestamp ≠ [] ∧ (t1 - lb.lastTimestampUpdate) / 1000 < 1
    · have hfirst := hhit lb t1 hc.1 hc.2
      rw [hfirst]
      rw [hmiss lb t2 (by omega)]
    · have hfirst : lb.getTimestamp t1 = (renderTimestamp lb.includeDate t1,
          { lb with
              cachedTimestamp := renderTimestamp lb.includeDate t1
              lastTimestampUpdate := t1 }) := by
        unfold LogBuffer.getTimestamp
        rw [if_neg hc]
      rw [hfirst]
      rw [hmiss _ _ (by
        show t1 + 1000 ≤ t2
        omega)]

/-- C8 witness: a warm cache is returned verbatim shortly after its
computation, and a stale request recomputes. -/
theorem C8_timestamp_witness :
    ({ cachedTimestamp := "X".data } : LogBuffer).getTimestamp 500 =
        ("X".data, { cachedTimestamp := "X".data }) ∧
      (({} : LogBuffer).getTimestamp 2000).1 = renderTimestamp true 2000 := by
  refine ⟨C8_timestamp.1 { cachedTimestamp := "X".data } 500 (by decide) (by decide), ?_⟩
  rw [C8_timestamp.2.1 {} 2000 (by decide)]
